import Mathlib

/-!
# Verification of scrape_sugar_futures.py

Shallow embedding of the sugar-futures scraping pipeline
(src/scrape_sugar_futures.py) and proofs about its behaviour.

Modelling conventions:
* An instant is a `Nat` of seconds since the Unix epoch (1970-01-01T00:00:00Z).
  The `zoneinfo` conversion to Europe/Berlin is modelled by the current IANA
  rule (in force since 1996): UTC+1, with daylight saving (UTC+2) from the
  last Sunday of March 01:00 UTC until the last Sunday of October 01:00 UTC.
* JSON scalar values are modelled by `JVal` (null, string, integer). The
  claims under study do not depend on float formatting, so JSON numbers are
  modelled as integers.
* A JSON object is an association list `JObj`; `JObj.get` mirrors Python
  `dict.get` (returns `none` when the key is missing).
* The ledger file is `FileState := Option (List Row)`: `none` means the file
  does not exist, `some rs` is the list of CSV rows it holds. Byte size is
  computed by encoding rows the way `csv.writer` does (comma separated,
  minimal quoting, CRLF row terminator), so size 0 coincides with no rows.
* Python file I/O can raise `OSError` at any write; `append_rows_fallible`
  models this with an oracle `failAt : Option Nat` naming the index of the
  row write that raises (rows written before it remain in the file, as they
  do when the context manager closes the file during exception unwind).
-/

namespace SugarPrices

/-! ## Civil calendar arithmetic

Days-to-date and date-to-days conversions (proleptic Gregorian calendar,
days counted from 1970-01-01). These embed the calendar arithmetic that
Python's `datetime`/`zoneinfo` provide to the script. -/

/-- A calendar date, mirroring `datetime.date`. -/
structure Date where
  year : Nat
  month : Nat
  day : Nat
deriving DecidableEq, Repr

/-- Convert a count of days since 1970-01-01 to a civil date
(standard era/year-of-era algorithm for the Gregorian calendar). -/
def civilFromDays (z : Nat) : Date :=
  let z' := z + 719468
  let era := z' / 146097
  let doe := z' % 146097
  let yoe := (doe - doe / 1460 + doe / 36524 - doe / 146097) / 365
  let y := yoe + era * 400
  let doy := doe - (365 * yoe + yoe / 4 - yoe / 100)
  let mp := (5 * doy + 2) / 153
  let d := doy - (153 * mp + 2) / 5 + 1
  let m := if mp < 10 then mp + 3 else mp - 9
  { year := if m ≤ 2 then y + 1 else y, month := m, day := d }

/-- Convert a civil date to a count of days since 1970-01-01
(inverse of `civilFromDays` on valid dates from 1970 on). -/
def daysFromCivil (y m d : Nat) : Nat :=
  let y' := if m ≤ 2 then y - 1 else y
  let era := y' / 400
  let yoe := y' - era * 400
  let mp := (m + 9) % 12
  let doy := (153 * mp + 2) / 5 + d - 1
  let doe := yoe * 365 + yoe / 4 - yoe / 100 + doy
  era * 146097 + doe - 719468

/-- Day of week of a day count, with Sunday = 0 (1970-01-01 was a Thursday). -/
def dayOfWeek (days : Nat) : Nat := (days + 4) % 7

/-- Day of month (in 1..31) of the last Sunday of a 31-day month. -/
def lastSundayDay (y m : Nat) : Nat :=
  31 - dayOfWeek (daysFromCivil y m 31)

/-! ## Europe/Berlin timezone model -/

/-- Instant (seconds since epoch) at which daylight saving time starts in
year `y`: last Sunday of March, 01:00 UTC. -/
def dstStart (y : Nat) : Nat :=
  daysFromCivil y 3 (lastSundayDay y 3) * 86400 + 3600

/-- Instant (seconds since epoch) at which daylight saving time ends in
year `y`: last Sunday of October, 01:00 UTC. -/
def dstEnd (y : Nat) : Nat :=
  daysFromCivil y 10 (lastSundayDay y 10) * 86400 + 3600

/-- Whether Europe/Berlin daylight saving time is active at instant `t`. -/
def berlinDstActive (t : Nat) : Bool :=
  let y := (civilFromDays (t / 86400)).year
  decide (dstStart y ≤ t ∧ t < dstEnd y)

/-- UTC offset of Europe/Berlin at instant `t`, in seconds. -/
def berlinOffset (t : Nat) : Nat :=
  if berlinDstActive t then 7200 else 3600

/-- A timezone-local wall-clock datetime, mirroring an aware `datetime`. -/
structure LocalDT where
  year : Nat
  month : Nat
  day : Nat
  hour : Nat
  minute : Nat
deriving DecidableEq, Repr

/-- Embeds `berlin_now()` (source lines 34-37) applied at instant `t`:
`datetime.now(tz=ZoneInfo("Europe/Berlin"))`, i.e. the Berlin wall-clock
datetime of the instant. -/
def berlin_now (t : Nat) : LocalDT :=
  let tl := t + berlinOffset t
  let d := civilFromDays (tl / 86400)
  { year := d.year, month := d.month, day := d.day
    hour := tl / 3600 % 24, minute := tl / 60 % 60 }

/-- Embeds `should_run_at_10_berlin` (source lines 40-43):
`return now_berlin.hour == 10`. -/
def should_run_at_10_berlin (now_berlin : LocalDT) : Bool :=
  now_berlin.hour == 10

/-- Local Berlin hour of instant `t`, written the way the specification
words it: the UTC hour count shifted by the (DST-dependent) offset in whole
hours, reduced modulo 24. Used as the specification-side formulation that
the clock gate is compared against. -/
def specBerlinLocalHour (t : Nat) : Nat :=
  (t / 3600 + (if berlinDstActive t then 2 else 1)) % 24

/-- Left zero-pad a numeral to two digits, as `isoformat` does. -/
def pad2 (n : Nat) : String :=
  if n < 10 then "0" ++ toString n else toString n

/-- Left zero-pad a year to four digits, as `isoformat` does. -/
def pad4 (n : Nat) : String :=
  if n < 10 then "000" ++ toString n
  else if n < 100 then "00" ++ toString n
  else if n < 1000 then "0" ++ toString n
  else toString n

/-- Embeds `now.date().isoformat()` (source line 157): the `YYYY-MM-DD`
string of a local datetime's date. -/
def isoDate (dt : LocalDT) : String :=
  pad4 dt.year ++ "-" ++ pad2 dt.month ++ "-" ++ pad2 dt.day

/-! ## JSON values and objects -/

/-- A JSON scalar value as seen by the script after `j.json()`. Numbers are
modelled as integers (the claims do not depend on float formatting). -/
inductive JVal where
  | null
  | str (s : String)
  | int (n : Int)
deriving DecidableEq, Repr

/-- A parsed JSON object: association list of key/value pairs. -/
abbrev JObj := List (String × JVal)

/-- Mirrors Python `dict.get(k)`: value of the first binding of `k`, `none`
when the key is missing. -/
def JObj.get (o : JObj) (k : String) : Option JVal :=
  (o.find? (fun p => p.1 == k)).map (fun p => p.2)

/-- Python truthiness of a `JVal`: `None`, `""` and `0` are falsy. -/
def JVal.truthy : JVal → Bool
  | .null => false
  | .str s => !s.isEmpty
  | .int n => n != 0

/-- Python `str()` of a `JVal` (`str(None) = "None"`). -/
def pyStr : JVal → String
  | .null => "None"
  | .str s => s
  | .int n => toString n

/-- Python `a or b` on a `dict.get` result: the value when present and
truthy, otherwise `b`. -/
def pyOr (a : Option JVal) (b : JVal) : JVal :=
  match a with
  | some v => if v.truthy then v else b
  | none => b

/-! ## Percent-decoding (urllib.parse.unquote) -/

/-- Numeric value of a hex digit, `none` for non-hex characters. -/
def hexVal (c : Char) : Option Nat :=
  if '0' ≤ c ∧ c ≤ '9' then some (c.toNat - '0'.toNat)
  else if 'a' ≤ c ∧ c ≤ 'f' then some (c.toNat - 'a'.toNat + 10)
  else if 'A' ≤ c ∧ c ≤ 'F' then some (c.toNat - 'A'.toNat + 10)
  else none

/-- Percent-decoding on a character list: a `%` followed by two hex digits
becomes the coded character, anything else passes through (as
`urllib.parse.unquote` does; multi-byte UTF-8 sequences are out of scope,
the XSRF tokens in question are ASCII). -/
def unquoteChars : List Char → List Char
  | [] => []
  | '%' :: h1 :: h2 :: rest =>
    match hexVal h1, hexVal h2 with
    | some a, some b => Char.ofNat (16 * a + b) :: unquoteChars rest
    | _, _ => '%' :: unquoteChars (h1 :: h2 :: rest)
  | c :: rest => c :: unquoteChars rest

/-- Embeds `urllib.parse.unquote` restricted to single-byte code points. -/
def unquote (s : String) : String :=
  ⟨unquoteChars s.data⟩

/-! ## Failure taxonomy

Every `raise` in the script, and every exception the libraries raise for
it, is one of these terminal failures (spec section 7). -/

inductive Failure where
  | authFailure
  | networkFailure
  | emptyResultFailure
  | ioFailure
  | tableNotFoundFailure
  | insufficientRowsFailure
deriving DecidableEq, Repr

/-! ## Fetcher, API strategy (fetch_rows, source lines 46-91) -/

/-- Parsed body of the quotes API response: the `results` collection.
`none` models the key being absent (or bound to `null`, which
`data.get("results") or []` treats the same way). -/
structure ApiResponse where
  results : Option (List JObj)

/-- Environment of one `fetch_rows()` call: what the network returns.
`pageOk` is whether the initial page GET succeeds (2xx);
`cookie` is the `XSRF-TOKEN` cookie the page GET sets, if any;
`apiResp tok` is the parsed body the quotes API returns when called with
`x-xsrf-token: tok`, `none` modelling a transport error or non-2xx. -/
structure FetchEnv where
  pageOk : Bool
  cookie : Option String
  apiResp : String → Option ApiResponse

/-- Embeds source lines 58-63: read the `XSRF-TOKEN` cookie, raise
(`AuthFailure`) when it is missing or empty (`if not xsrf`), otherwise
percent-decode it twice to obtain the token header value. -/
def tokenStage (cookie : Option String) : Except Failure String :=
  match cookie with
  | none => .error .authFailure
  | some v => if v.isEmpty then .error .authFailure else .ok (unquote (unquote v))

/-- Embeds source lines 85-91: take `results` (absent defaults to the empty
list), raise (`EmptyResultFailure`) when it is empty, otherwise return
`results[:6]`. -/
def parseResults (resp : ApiResponse) : Except Failure (List JObj) :=
  let results := resp.results.getD []
  if results.isEmpty then .error .emptyResultFailure
  else .ok (results.take 6)

/-- Embeds `fetch_rows()` (source lines 46-91): page GET (2xx required),
token extraction and double decode, authenticated API GET carrying the
decoded token (2xx required), then result parsing. -/
def fetch_rows (env : FetchEnv) : Except Failure (List JObj) :=
  if !env.pageOk then .error .networkFailure
  else
    match tokenStage env.cookie with
    | .error e => .error e
    | .ok tok =>
      match env.apiResp tok with
      | none => .error .networkFailure
      | some resp => parseResults resp

/-! ## The ledger file (CSV), source lines 94-146 -/

/-- One CSV row: a list of field strings. -/
abbrev Row := List String

/-- The ledger file: `none` when the file does not exist, otherwise its
rows in order. -/
abbrev FileState := Option (List Row)

/-- Whether `csv.writer` must quote a field (default dialect: fields
containing the delimiter, the quote character or a line break). -/
def needsQuote (s : String) : Bool :=
  s.data.any (fun c => c == ',' || c == '"' || c == '\r' || c == '\n')

/-- Encode one field the way `csv.writer` (default dialect) does: quoted
with doubled inner quotes when needed, verbatim otherwise. -/
def encodeField (s : String) : String :=
  if needsQuote s then
    "\"" ++ String.join (s.data.map (fun c => if c == '"' then "\"\"" else String.singleton c)) ++ "\""
  else s

/-- Encode one row as `csv.writer` does: comma-separated fields, CRLF
terminator. -/
def encodeRow (r : Row) : String :=
  String.intercalate "," (r.map encodeField) ++ "\r\n"

/-- Byte content of a list of rows: the concatenation of the encoded rows. -/
def encodeFile : List Row → String
  | [] => ""
  | r :: rest => encodeRow r ++ encodeFile rest

/-- Embeds `os.path.getsize` composed with the existence check: size of the
file's byte content, 0 for a missing file. -/
def fileSize : FileState → Nat
  | none => 0
  | some rs => (encodeFile rs).length

/-- The fixed header row built at source lines 102-113. -/
def HEADER : Row :=
  ["Date", "Contract", "Latest", "Change", "Open", "High", "Low",
   "Previous", "Volume", "Open Int", "Time"]

/-- Embeds `ensure_header` (source lines 94-98): when the file does not
exist or is empty, (re)create it holding exactly the header row; otherwise
leave it alone. -/
def ensure_header (fs : FileState) (header : Row) : FileState :=
  match fs with
  | none => some [header]
  | some rs => if fileSize (some rs) = 0 then some [header] else some rs

/-! ## Row normalisation (source lines 116-142) -/

/-- Embeds the inner `norm` (source lines 116-119): `None` becomes the
empty string, anything else its `str()`. A missing key (`dict.get`
returning `None`) takes the same branch. -/
def norm : Option JVal → String
  | none => ""
  | some .null => ""
  | some v => pyStr v

/-- Embeds source line 128: `item.get("symbol") or item.get("contractSymbol")
or ""` — first truthy value of the chain, else the empty string. -/
def contractOf (item : JObj) : JVal :=
  pyOr (item.get "symbol") (pyOr (item.get "contractSymbol") (.str ""))

/-- Embeds the `line` list (source lines 130-142) as it reaches the file:
date string first, then the contract and the nine named fields, every
element stringified the way `csv.writer` stringifies it. -/
def lineFor (date_str : String) (item : JObj) : Row :=
  [date_str,
   pyStr (contractOf item),
   norm (item.get "lastPrice"),
   norm (item.get "priceChange"),
   norm (item.get "openPrice"),
   norm (item.get "highPrice"),
   norm (item.get "lowPrice"),
   norm (item.get "previousPrice"),
   norm (item.get "volume"),
   norm (item.get "openInterest"),
   norm (item.get "tradeTime")]

/-- The non-date fields of a normalised record: the row minus its leading
date field. -/
def normalizedFields (date_str : String) (item : JObj) : List String :=
  (lineFor date_str item).tail

/-! ## Appending (source lines 101-146) -/

/-- The `for item in rows` loop of `append_rows` (source lines 125-144),
assuming every row write succeeds: threads the `written` counter and the
file's row list. -/
def appendLoop (date_str : String) : List JObj → Nat → List Row → Nat × List Row
  | [], written, acc => (written, acc)
  | item :: rest, written, acc =>
    appendLoop date_str rest (written + 1) (acc ++ [lineFor date_str item])

/-- Embeds `append_rows` (source lines 101-146) on the success path:
ensure the header, then append one encoded line per record, returning the
count written. `open(path, "a")` creates a missing file, so the result
always exists. -/
def append_rows (fs : FileState) (date_str : String) (rows : List JObj) :
    Nat × FileState :=
  let fs1 := ensure_header fs HEADER
  let out := appendLoop date_str rows 0 (fs1.getD [])
  (out.1, some out.2)

/-- The same loop under an injected I/O failure: `failAt = some k` means the
k-th `writerow` call (0-based) raises `OSError`. Rows written before it
remain: the context manager closes (and flushes) the file while the
exception unwinds. -/
def appendLoopF (failAt : Option Nat) (date_str : String) :
    List JObj → Nat → List Row → Except Failure Nat × List Row
  | [], written, acc => (.ok written, acc)
  | item :: rest, written, acc =>
    if failAt = some written then (.error .ioFailure, acc)
    else appendLoopF failAt date_str rest (written + 1) (acc ++ [lineFor date_str item])

/-- Embeds `append_rows` under the I/O failure model: like `append_rows`,
but the write designated by `failAt` raises, propagating the exception with
the earlier rows already in the file. -/
def append_rows_fallible (failAt : Option Nat) (fs : FileState)
    (date_str : String) (rows : List JObj) : Except Failure Nat × FileState :=
  let fs1 := ensure_header fs HEADER
  let out := appendLoopF failAt date_str rows 0 (fs1.getD [])
  (out.1, some out.2)

/-! ## Runner (main, source lines 149-161) -/

/-- Observable outcome of one invocation of `main`: process exit code,
whether the Fetcher was invoked, the ledger file afterwards, and the row
count the success message reports. -/
structure RunResult where
  exitCode : Nat
  fetcherCalled : Bool
  fs : FileState
  appended : Nat
deriving Repr

/-- Embeds `main` (source lines 149-161) invoked at instant `t` with the
network behaving as `env`, the ledger file in state `fs`, and write
failures injected per `failAt`. Gate false: exit 0 without fetching.
Uncaught exceptions (fetch or append failure) exit non-zero. There is no
ledger lookup between the gate and the fetch. -/
def mainRun (t : Nat) (env : FetchEnv) (failAt : Option Nat)
    (fs : FileState) : RunResult :=
  let now := berlin_now t
  if !should_run_at_10_berlin now then
    { exitCode := 0, fetcherCalled := false, fs := fs, appended := 0 }
  else
    let date_str := isoDate now
    match fetch_rows env with
    | .error _ => { exitCode := 1, fetcherCalled := true, fs := fs, appended := 0 }
    | .ok rows =>
      match append_rows_fallible failAt fs date_str rows with
      | (.error _, fs2) =>
        { exitCode := 1, fetcherCalled := true, fs := fs2, appended := 0 }
      | (.ok n, fs2) =>
        { exitCode := 0, fetcherCalled := true, fs := fs2, appended := n }

/-! ## Fetcher, HTML strategy

The repository variant implementing the HTML-table scrape is not among the
source files; the definitions below are modelled from the spec (section
4.4) and marked as such. -/

/-- Character-list test: is the first list a prefix of the second? -/
def isPrefChars : List Char → List Char → Bool
  | [], _ => true
  | _ :: _, [] => false
  | a :: as, b :: bs => a == b && isPrefChars as bs

/-- Character-list test: does the pattern occur contiguously in the list? -/
def hasInfixChars (pat : List Char) : List Char → Bool
  | [] => isPrefChars pat []
  | c :: rest => isPrefChars pat (c :: rest) || hasInfixChars pat rest

/-- Substring test on strings, used for the header heuristic and the
contract-root check of the HTML strategy. -/
def strContains (s pat : String) : Bool :=
  hasInfixChars pat.data s.data

/-- Modelled from the spec: one HTML table as the strategy sees it — the
text of its header cells and, per body row, the stripped text of each
cell. The DOM parsing library that produces this view is out of scope. -/
structure HtmlTable where
  headers : List String
  rows : List (List String)
deriving Repr

/-- Modelled from the spec: a table matches when its header cells' combined
text contains both "Contract" and "Latest" (spec section 4.4 step 2). -/
def tableMatches (t : HtmlTable) : Bool :=
  let combined := String.join t.headers
  strContains combined "Contract" && strContains combined "Latest"

/-- Modelled from the spec: the qualifying rows of a table — rows with at
least 10 cells, truncated to their first 10 cells, whose first cell
textually references the contract root "SB" (spec section 4.4 step 4). -/
def qualifyingRows (t : HtmlTable) : List (List String) :=
  ((t.rows.filter (fun r => decide (10 ≤ r.length))).map
      (fun r => r.take 10)).filter
    (fun r => strContains (r.headD "") "SB")

/-- Modelled from the spec: `fetchViaHtml`, the HTML fetch strategy, which
is not present in src/. Locates the first matching table
(`TableNotFoundFailure` when none is), collects qualifying rows and stops
after 6 (`InsufficientRowsFailure` when fewer exist). -/
def fetchViaHtml (doc : List HtmlTable) : Except Failure (List (List String)) :=
  match doc.find? tableMatches with
  | none => .error .tableNotFoundFailure
  | some t =>
    let q := qualifyingRows t
    if q.length < 6 then .error .insufficientRowsFailure
    else .ok (q.take 6)

/-! ## Concrete sample data used by witnesses and counterexamples -/

/-- A sample raw API record. -/
def sampleItem : JObj :=
  [("symbol", JVal.str "SBH26"), ("lastPrice", JVal.int 17)]

/-- An instant at which it is 10:00 in Berlin: 2026-10-12 08:00 UTC (Berlin
daylight saving time, UTC+2, ends 2026-10-25). -/
def tOct : Nat := daysFromCivil 2026 10 12 * 86400 + 8 * 3600

/-- Ten minutes later: 10:10 in Berlin, same date, still inside hour 10. -/
def tOctLater : Nat := tOct + 600

/-- A network environment whose API call succeeds with 6 records. -/
def envSix : FetchEnv :=
  { pageOk := true, cookie := some "token"
    apiResp := fun _ => some ⟨some (List.replicate 6 sampleItem)⟩ }

/-- A network environment whose page GET fails outright. -/
def envDown : FetchEnv :=
  { pageOk := false, cookie := none, apiResp := fun _ => none }

/-- A network environment whose API call succeeds with only 2 records. -/
def envTwo : FetchEnv :=
  { pageOk := true, cookie := some "token"
    apiResp := fun _ => some ⟨some [sampleItem, sampleItem]⟩ }

/-- Ledger state after a first successful run on 2026-10-12 against
`envSix`, starting from a header-only file. -/
def fsAfterFirst : FileState :=
  (mainRun tOct envSix none (some [HEADER])).fs

/-! ## Helper lemmas -/

/-- Unfolding lemma for the append loop on the success path. -/
theorem appendLoop_eq (d : String) (rows : List JObj) (w : Nat) (acc : List Row) :
    appendLoop d rows w acc = (w + rows.length, acc ++ rows.map (lineFor d)) := by
  induction rows generalizing w acc with
  | nil => simp [appendLoop]
  | cons item rest ih =>
      rw [appendLoop, ih]
      simp only [Prod.mk.injEq, List.map_cons, List.length_cons]
      constructor
      · omega
      · simp

/-- With no injected failure, the fallible loop coincides with the plain
loop. -/
theorem appendLoopF_none_eq (d : String) (rows : List JObj) (w : Nat) (acc : List Row) :
    appendLoopF none d rows w acc = (.ok (w + rows.length), acc ++ rows.map (lineFor d)) := by
  induction rows generalizing w acc with
  | nil => simp [appendLoopF]
  | cons item rest ih =>
      rw [appendLoopF]
      simp only [reduceCtorEq, if_false]
      rw [ih]
      simp only [Prod.mk.injEq, List.map_cons, List.length_cons, Except.ok.injEq]
      constructor
      · omega
      · simp

/-- With a failure injected at write `k` inside the batch, the loop raises
having appended exactly the first `k - w` remaining rows. -/
theorem appendLoopF_fail_eq (d : String) (k : Nat) (rows : List JObj) (w : Nat)
    (acc : List Row) (hw : w ≤ k) (hk : k - w < rows.length) :
    appendLoopF (some k) d rows w acc =
      (.error .ioFailure, acc ++ (rows.take (k - w)).map (lineFor d)) := by
  induction rows generalizing w acc with
  | nil => simp at hk
  | cons item rest ih =>
      rw [appendLoopF]
      by_cases hkw : k = w
      · subst hkw
        simp
      · have hw1 : w + 1 ≤ k := by omega
        have hk1 : k - (w + 1) < rest.length := by simp at hk; omega
        have hne : ¬ (some k = some w) := by simp; omega
        rw [if_neg hne, ih (w + 1) (acc ++ [lineFor d item]) hw1 hk1]
        have htake : (item :: rest).take (k - w) = item :: rest.take (k - (w + 1)) := by
          have : k - w = (k - (w + 1)) + 1 := by omega
          rw [this, List.take_succ_cons]
        rw [htake]
        simp

/-- A row encodes to at least its CRLF terminator. -/
theorem encodeRow_length_pos (r : Row) : 0 < (encodeRow r).length := by
  simp only [encodeRow, String.length_append]
  have h : (0 : Nat) < "\r\n".length := by decide
  omega

/-- A file holding at least one row has non-zero size. -/
theorem fileSize_cons_pos (r : Row) (rest : List Row) :
    0 < fileSize (some (r :: rest)) := by
  have h := encodeRow_length_pos r
  have h2 : fileSize (some (r :: rest)) =
      (encodeRow r).length + (encodeFile rest).length := by
    simp [fileSize, encodeFile, String.length_append]
  omega

/-- `ensure_header` on a non-empty file is the identity. -/
theorem ensure_header_nonempty (r : Row) (rest : List Row) (h : Row) :
    ensure_header (some (r :: rest)) h = some (r :: rest) := by
  have hpos := fileSize_cons_pos r rest
  simp only [ensure_header]
  rw [if_neg (by omega)]

/-- Unfolded form of `append_rows`. -/
theorem append_rows_eq (fs : FileState) (d : String) (rows : List JObj) :
    append_rows fs d rows =
      (rows.length, some ((ensure_header fs HEADER).getD [] ++ rows.map (lineFor d))) := by
  simp [append_rows, appendLoop_eq]

/-- Unfolded form of `append_rows_fallible` with no injected failure. -/
theorem append_rows_fallible_none_eq (fs : FileState) (d : String) (rows : List JObj) :
    append_rows_fallible none fs d rows =
      (.ok rows.length, some ((ensure_header fs HEADER).getD [] ++ rows.map (lineFor d))) := by
  simp [append_rows_fallible, appendLoopF_none_eq]

/-- Unfolded form of `append_rows_fallible` when the injected failure hits
inside the batch. -/
theorem append_rows_fallible_fail_eq (fs : FileState) (d : String) (rows : List JObj)
    (k : Nat) (hk : k < rows.length) :
    append_rows_fallible (some k) fs d rows =
      (.error .ioFailure,
       some ((ensure_header fs HEADER).getD [] ++ (rows.take k).map (lineFor d))) := by
  have h := appendLoopF_fail_eq d k rows 0 ((ensure_header fs HEADER).getD [])
    (Nat.zero_le k) (by simpa using hk)
  simp only [append_rows_fallible]
  rw [h]
  simp

/-- `mainRun` when the clock gate is false. -/
theorem mainRun_gate_false (t : Nat) (env : FetchEnv) (failAt : Option Nat)
    (fs : FileState) (hgate : should_run_at_10_berlin (berlin_now t) = false) :
    mainRun t env failAt fs =
      { exitCode := 0, fetcherCalled := false, fs := fs, appended := 0 } := by
  simp [mainRun, hgate]

/-- `mainRun` when the gate is true and the fetch fails. -/
theorem mainRun_fetch_error (t : Nat) (env : FetchEnv) (failAt : Option Nat)
    (fs : FileState) (e : Failure)
    (hgate : should_run_at_10_berlin (berlin_now t) = true)
    (hfetch : fetch_rows env = .error e) :
    mainRun t env failAt fs =
      { exitCode := 1, fetcherCalled := true, fs := fs, appended := 0 } := by
  simp [mainRun, hgate, hfetch]

/-- `mainRun` when the gate is true, the fetch succeeds and every write
succeeds. -/
theorem mainRun_fetch_ok (t : Nat) (env : FetchEnv) (fs : FileState)
    (rows : List JObj)
    (hgate : should_run_at_10_berlin (berlin_now t) = true)
    (hfetch : fetch_rows env = .ok rows) :
    mainRun t env none fs =
      { exitCode := 0, fetcherCalled := true
        fs := some ((ensure_header fs HEADER).getD [] ++
                    rows.map (lineFor (isoDate (berlin_now t))))
        appended := rows.length } := by
  simp [mainRun, hgate, hfetch, append_rows_fallible_none_eq]

/-! ## Claim theorems -/

/-- C3: for every instant `t`, the clock gate applied to the Berlin-local
conversion of `t` is true if and only if the Berlin local hour of `t`
equals 10, and this holds across both daylight-saving transitions: at the
2025 spring-forward boundary (2025-03-30) the gate accepts 08:00 UTC
(10:00 CEST) and rejects 09:00 UTC, while at the fall-back boundary
(2025-10-26) it accepts 09:00 UTC (10:00 CET) and rejects 08:00 UTC. -/
theorem clock_gate_iff_local_hour (t : Nat) :
    (should_run_at_10_berlin (berlin_now t) = true ↔ specBerlinLocalHour t = 10)
    ∧ should_run_at_10_berlin (berlin_now (daysFromCivil 2025 3 30 * 86400 + 8 * 3600)) = true
    ∧ should_run_at_10_berlin (berlin_now (daysFromCivil 2025 3 30 * 86400 + 9 * 3600)) = false
    ∧ should_run_at_10_berlin (berlin_now (daysFromCivil 2025 10 26 * 86400 + 9 * 3600)) = true
    ∧ should_run_at_10_berlin (berlin_now (daysFromCivil 2025 10 26 * 86400 + 8 * 3600)) = false := by
  refine ⟨?_, by decide, by decide, by decide, by decide⟩
  have hhour : (berlin_now t).hour = (t + berlinOffset t) / 3600 % 24 := rfl
  have hspec : specBerlinLocalHour t = (t + berlinOffset t) / 3600 % 24 := by
    simp only [specBerlinLocalHour, berlinOffset]
    by_cases hd : berlinDstActive t = true
    · rw [if_pos hd, if_pos hd]
      have h2 : t + 7200 = t + 2 * 3600 := by norm_num
      rw [h2, Nat.add_mul_div_right _ _ (by norm_num : (0:Nat) < 3600)]
    · rw [if_neg hd, if_neg hd]
      have h2 : t + 3600 = t + 1 * 3600 := by norm_num
      rw [h2, Nat.add_mul_div_right _ _ (by norm_num : (0:Nat) < 3600)]
  simp [should_run_at_10_berlin, hhour, hspec]

/-- Witness for C3: at 2026-10-12 08:00 UTC the Berlin local hour is 10,
so the gate (applied through the iff) accepts. -/
theorem clock_gate_iff_local_hour_witness :
    should_run_at_10_berlin (berlin_now tOct) = true :=
  (clock_gate_iff_local_hour tOct).1.mpr (by decide)

/-- C7: `ensure_header` writes exactly the header row when the file is
missing or empty, is the identity otherwise, and is idempotent. -/
theorem ensure_header_spec (fs : FileState) (h : Row) :
    (fs = none → ensure_header fs h = some [h])
    ∧ (fileSize fs = 0 → ensure_header fs h = some [h])
    ∧ (∀ rs, fs = some rs → fileSize fs ≠ 0 → ensure_header fs h = fs)
    ∧ ensure_header (ensure_header fs h) h = ensure_header fs h := by
  refine ⟨?_, ?_, ?_, ?_⟩
  · intro hn; subst hn; rfl
  · intro hz
    match fs with
    | none => rfl
    | some [] => rfl
    | some (r :: rest) =>
        exact absurd hz (by have := fileSize_cons_pos r rest; omega)
  · intro rs hrs hnz
    subst hrs
    match rs with
    | [] => exact absurd rfl hnz
    | r :: rest => exact ensure_header_nonempty r rest h
  · match fs with
    | none =>
        show ensure_header (some [h]) h = some [h]
        exact ensure_header_nonempty h [] h
    | some [] =>
        show ensure_header (some [h]) h = some [h]
        exact ensure_header_nonempty h [] h
    | some (r :: rest) =>
        rw [ensure_header_nonempty r rest h, ensure_header_nonempty r rest h]

/-- Witness for C7: a missing file gets the header, a file already holding
the header row is left unchanged. -/
theorem ensure_header_spec_witness :
    ensure_header none HEADER = some [HEADER]
    ∧ ensure_header (some [HEADER]) HEADER = some [HEADER] :=
  ⟨(ensure_header_spec none HEADER).1 rfl,
   (ensure_header_spec (some [HEADER]) HEADER).2.2.1 [HEADER] rfl (by decide)⟩

/-- C8: `append_rows` ensures the header, then appends exactly one row per
record of the batch (each row's first field being the date string), returns
the batch's length, and existing file content survives as a prefix. -/
theorem append_rows_spec (fs : FileState) (d : String) (rows : List JObj) :
    (append_rows fs d rows).1 = rows.length
    ∧ (append_rows fs d rows).2 =
        some ((ensure_header fs HEADER).getD [] ++ rows.map (lineFor d))
    ∧ (∀ item, (lineFor d item).head? = some d)
    ∧ (∀ old, fs = some old →
        ∃ tail, (append_rows fs d rows).2 = some (old ++ tail)) := by
  refine ⟨?_, ?_, ?_, ?_⟩
  · rw [append_rows_eq]
  · rw [append_rows_eq]
  · intro item; rfl
  · intro old hold
    subst hold
    match old with
    | [] =>
        refine ⟨[HEADER] ++ rows.map (lineFor d), ?_⟩
        rw [append_rows_eq]
        rfl
    | r :: rest =>
        refine ⟨rows.map (lineFor d), ?_⟩
        rw [append_rows_eq, ensure_header_nonempty]
        rfl

/-- Witness for C8: appending one record to a header-only ledger reports
one row written and leaves the old content as a prefix. -/
theorem append_rows_spec_witness :
    (append_rows (some [HEADER]) "2026-01-02" [sampleItem]).1 = 1
    ∧ ∃ tail, (append_rows (some [HEADER]) "2026-01-02" [sampleItem]).2
        = some ([HEADER] ++ tail) := by
  have h := append_rows_spec (some [HEADER]) "2026-01-02" [sampleItem]
  exact ⟨by simpa using h.1, h.2.2.2 [HEADER] rfl⟩

/-- Helper: result parsing never raises the auth failure. -/
theorem parseResults_ne_auth (resp : ApiResponse) :
    parseResults resp ≠ Except.error Failure.authFailure := by
  simp only [parseResults]
  split
  · simp
  · simp

/-- C4: after parsing, the fetch fails with EmptyResultFailure iff the
`results` collection is absent or empty, and otherwise returns the first 6
entries of `results` in the order the API returned them (element `i` of
the result is element `i` of `results`). -/
theorem parse_results_spec (resp : ApiResponse) :
    (parseResults resp = .error .emptyResultFailure ↔
      (resp.results = none ∨ resp.results = some []))
    ∧ (∀ rs, resp.results = some rs → rs ≠ [] →
        parseResults resp = .ok (rs.take 6)
        ∧ (rs.take 6).length = min 6 rs.length
        ∧ ∀ i, ∀ h1 : i < (rs.take 6).length, ∀ hi : i < rs.length,
            (rs.take 6).get ⟨i, h1⟩ = rs.get ⟨i, hi⟩) := by
  constructor
  · match hres : resp.results with
    | none => simp [parseResults, hres]
    | some [] => simp [parseResults, hres]
    | some (x :: xs) => simp [parseResults, hres]
  · intro rs hrs hne
    have hget : resp.results.getD [] = rs := by rw [hrs]; rfl
    have hie : rs.isEmpty = false := by
      cases rs with
      | nil => exact absurd rfl hne
      | cons x xs => rfl
    refine ⟨by simp [parseResults, hget, hie], by simp, ?_⟩
    intro i h1 hi
    simp [List.get_eq_getElem, List.getElem_take]

/-- Witness for C4: with 7 results present, parsing succeeds and keeps the
first 6. -/
theorem parse_results_spec_witness :
    parseResults ⟨some (List.replicate 7 sampleItem)⟩
      = .ok (List.replicate 6 sampleItem) := by
  have h := (parse_results_spec ⟨some (List.replicate 7 sampleItem)⟩).2
    (List.replicate 7 sampleItem) rfl (by decide)
  rw [h.1]
  rfl

/-- C5 counterexample: when the page GET succeeds and sets the XSRF cookie
with an empty value, the fetch raises AuthFailure even though a cookie was
received, refuting the claimed "if and only if no cookie" condition. -/
theorem auth_failure_empty_cookie_counterexample :
    fetch_rows { pageOk := true, cookie := some "", apiResp := fun _ => none }
      = .error .authFailure
    ∧ (some "" : Option String) ≠ none := by
  exact ⟨rfl, by simp⟩

/-- C5 (amended): once the page GET has succeeded, the fetch raises
AuthFailure iff the XSRF cookie is absent or its value is empty (Python
falsiness); when the cookie holds a non-empty value, the fetch proceeds by
calling the data API with exactly the twice-percent-decoded cookie value
as the token header. -/
theorem fetch_rows_auth_spec (env : FetchEnv) (hpage : env.pageOk = true) :
    (fetch_rows env = .error .authFailure ↔
      (env.cookie = none ∨ env.cookie = some ""))
    ∧ (∀ v, env.cookie = some v → v ≠ "" →
        fetch_rows env =
          match env.apiResp (unquote (unquote v)) with
          | none => .error .networkFailure
          | some resp => parseResults resp) := by
  constructor
  · match hc : env.cookie with
    | none => simp [fetch_rows, hpage, tokenStage, hc]
    | some v =>
        by_cases hv : v = ""
        · subst hv
          have he : "".isEmpty = true := rfl
          simp [fetch_rows, hpage, tokenStage, hc, he]
        · have hie : v.isEmpty = false := by
            rw [Bool.eq_false_iff]
            intro hcon
            exact hv ((String.isEmpty_iff v).mp hcon)
          have hfr : fetch_rows env =
              match env.apiResp (unquote (unquote v)) with
              | none => Except.error Failure.networkFailure
              | some resp => parseResults resp := by
            simp [fetch_rows, hpage, hc, tokenStage, hie]
          rw [hfr]
          cases hr : env.apiResp (unquote (unquote v)) with
          | none => simp [hv]
          | some resp =>
              simp only [Option.some.injEq]
              constructor
              · intro hcon
                exact absurd hcon (parseResults_ne_auth resp)
              · intro hcon
                rcases hcon with hcon | hcon
                · exact absurd hcon (by simp)
                · exact absurd hcon hv
  · intro v hcv hvne
    have hie : v.isEmpty = false := by
      rw [Bool.eq_false_iff]
      intro hcon
      exact hvne ((String.isEmpty_iff v).mp hcon)
    simp [fetch_rows, hpage, hcv, tokenStage, hie]

/-- Witness for C5 (amended): a non-empty cookie value is double-decoded
and the fetch continues into the API call with it. -/
theorem fetch_rows_auth_spec_witness :
    fetch_rows envTwo =
      match envTwo.apiResp (unquote (unquote "token")) with
      | none => Except.error Failure.networkFailure
      | some resp => parseResults resp :=
  (fetch_rows_auth_spec envTwo rfl).2 "token" rfl (by decide)

/-- Truthiness of a `dict.get` result, as Python's `or` sees it. -/
def truthyOpt : Option JVal → Bool
  | none => false
  | some v => v.truthy

/-- A raw record whose `symbol` is present but empty while `contractSymbol`
holds a value. -/
def emptySymbolItem : JObj :=
  [("symbol", JVal.str ""), ("contractSymbol", JVal.str "SBH26")]

/-- C6 counterexample: a record whose primary field `symbol` is present
(with the empty string as value) still yields the secondary field's value
as the contract, refuting "falling back only if the primary is absent"
(which would demand the contract be the primary's value, the empty
string). -/
theorem contract_primary_present_counterexample :
    JObj.get emptySymbolItem "symbol" = some (JVal.str "")
    ∧ pyStr (contractOf emptySymbolItem) = "SBH26"
    ∧ ("SBH26" : String) ≠ "" :=
  ⟨rfl, rfl, by decide⟩

/-- C6 (amended): normalization yields exactly 10 non-date string fields
in the fixed schema order; missing and null values become the empty
string; the contract is the `symbol` value when that value is truthy
(present, non-null, non-empty), else the `contractSymbol` value when that
is truthy, else the empty string. -/
theorem normalize_spec (d : String) (item : JObj) :
    (normalizedFields d item).length = 10
    ∧ normalizedFields d item =
        [pyStr (contractOf item),
         norm (item.get "lastPrice"), norm (item.get "priceChange"),
         norm (item.get "openPrice"), norm (item.get "highPrice"),
         norm (item.get "lowPrice"), norm (item.get "previousPrice"),
         norm (item.get "volume"), norm (item.get "openInterest"),
         norm (item.get "tradeTime")]
    ∧ norm none = ""
    ∧ norm (some .null) = ""
    ∧ (truthyOpt (item.get "symbol") = true →
        contractOf item = (item.get "symbol").getD .null)
    ∧ (truthyOpt (item.get "symbol") = false →
        truthyOpt (item.get "contractSymbol") = true →
        contractOf item = (item.get "contractSymbol").getD .null)
    ∧ (truthyOpt (item.get "symbol") = false →
        truthyOpt (item.get "contractSymbol") = false →
        pyStr (contractOf item) = "") := by
  refine ⟨rfl, rfl, rfl, rfl, ?_, ?_, ?_⟩
  · intro hs
    cases hg : item.get "symbol" with
    | none => rw [hg] at hs; simp [truthyOpt] at hs
    | some v =>
        rw [hg] at hs
        simp only [truthyOpt] at hs
        simp [contractOf, pyOr, hg, hs]
  · intro hs hcs
    cases hg : item.get "symbol" with
    | none =>
        cases hg2 : item.get "contractSymbol" with
        | none => rw [hg2] at hcs; simp [truthyOpt] at hcs
        | some w =>
            rw [hg2] at hcs
            simp only [truthyOpt] at hcs
            simp [contractOf, pyOr, hg, hg2, hcs]
    | some v =>
        rw [hg] at hs
        simp only [truthyOpt] at hs
        cases hg2 : item.get "contractSymbol" with
        | none => rw [hg2] at hcs; simp [truthyOpt] at hcs
        | some w =>
            rw [hg2] at hcs
            simp only [truthyOpt] at hcs
            simp [contractOf, pyOr, hg, hg2, hs, hcs]
  · intro hs hcs
    cases hg : item.get "symbol" with
    | none =>
        cases hg2 : item.get "contractSymbol" with
        | none => simp [contractOf, pyOr, hg, hg2, pyStr]
        | some w =>
            rw [hg2] at hcs
            simp only [truthyOpt] at hcs
            simp [contractOf, pyOr, hg, hg2, hcs, pyStr]
    | some v =>
        rw [hg] at hs
        simp only [truthyOpt] at hs
        cases hg2 : item.get "contractSymbol" with
        | none => simp [contractOf, pyOr, hg, hg2, hs, pyStr]
        | some w =>
            rw [hg2] at hcs
            simp only [truthyOpt] at hcs
            simp [contractOf, pyOr, hg, hg2, hs, hcs, pyStr]

/-- Witness for C6 (amended): with `symbol` absent and `contractSymbol`
holding "SBX25", the contract falls back to "SBX25". -/
theorem normalize_spec_witness :
    contractOf [("contractSymbol", JVal.str "SBX25")]
      = (JObj.get [("contractSymbol", JVal.str "SBX25")] "contractSymbol").getD .null :=
  (normalize_spec "2026-01-02" [("contractSymbol", JVal.str "SBX25")]).2.2.2.2.2.1
    rfl rfl

set_option maxRecDepth 8192 in
/-- C1 counterexample: after a first successful run has appended its 6 rows
for 2026-10-12, a second invocation ten minutes later (same date, Berlin
hour still 10) calls the Fetcher again, changes the file's byte length,
and appends a second set of 6 rows — there is no duplicate-date check. -/
theorem second_run_appends_again_counterexample :
    (mainRun tOct envSix none (some [HEADER])).exitCode = 0
    ∧ (mainRun tOct envSix none (some [HEADER])).appended = 6
    ∧ (mainRun tOctLater envSix none fsAfterFirst).fetcherCalled = true
    ∧ (mainRun tOctLater envSix none fsAfterFirst).fs ≠ fsAfterFirst
    ∧ fileSize (mainRun tOctLater envSix none fsAfterFirst).fs ≠ fileSize fsAfterFirst
    ∧ (mainRun tOctLater envSix none fsAfterFirst).fs =
        some (fsAfterFirst.getD [] ++
          List.replicate 6 (lineFor "2026-10-12" sampleItem)) := by
  refine ⟨rfl, rfl, rfl, by decide, by decide, rfl⟩

/-- C1 (amended): the pipeline performs no ledger-based duplicate check. An
invocation is a no-op (exit 0, no Fetcher call, file untouched) exactly
when the Berlin-local hour is not 10; whenever the hour is 10 and the fetch
succeeds, the run fetches and appends the batch regardless of what the
ledger already holds for that date, so a second invocation on the same date
skips only if it falls outside hour 10. -/
theorem pipeline_no_duplicate_check (t : Nat) (env : FetchEnv) (fs : FileState) :
    (should_run_at_10_berlin (berlin_now t) = false →
      mainRun t env none fs =
        { exitCode := 0, fetcherCalled := false, fs := fs, appended := 0 })
    ∧ (should_run_at_10_berlin (berlin_now t) = true →
      ∀ rows, fetch_rows env = .ok rows →
        mainRun t env none fs =
          { exitCode := 0, fetcherCalled := true
            fs := some ((ensure_header fs HEADER).getD [] ++
                        rows.map (lineFor (isoDate (berlin_now t))))
            appended := rows.length }) :=
  ⟨fun h => mainRun_gate_false t env none fs h,
   fun h rows hf => mainRun_fetch_ok t env fs rows h hf⟩

/-- Witness for C1 (amended): at 10:00 Berlin on 2026-10-12, a ledger that
already holds that date's rows is appended to again. -/
theorem pipeline_no_duplicate_check_witness :
    mainRun tOct envSix none fsAfterFirst =
      { exitCode := 0, fetcherCalled := true
        fs := some ((ensure_header fsAfterFirst HEADER).getD [] ++
                    (List.replicate 6 sampleItem).map (lineFor (isoDate (berlin_now tOct))))
        appended := (List.replicate 6 sampleItem).length } :=
  (pipeline_no_duplicate_check tOct envSix fsAfterFirst).2 rfl
    (List.replicate 6 sampleItem) rfl

/-- C2 counterexample: with an I/O error injected at the second row write,
the append fails having already written the first row of the batch, so a
failed append does change the ledger — batch atomicity does not hold. -/
theorem partial_append_counterexample :
    append_rows_fallible (some 1) (some [HEADER]) "2026-10-12" [sampleItem, sampleItem]
      = (.error .ioFailure, some [HEADER, lineFor "2026-10-12" sampleItem])
    ∧ some [HEADER, lineFor "2026-10-12" sampleItem] ≠ (some [HEADER] : FileState) := by
  exact ⟨rfl, by simp⟩

/-- C2 (amended): normalization and appending happen only after a fully
successful fetch — on any fetch failure the ledger is byte-for-byte
unchanged and no rows are reported written; the append itself, however,
proceeds row by row: an I/O error at the k-th row write of the batch
leaves exactly the first k rows of the batch appended, so all-or-nothing
holds only for errors raised before the first row write. -/
theorem no_write_on_fetch_failure (t : Nat) (env : FetchEnv)
    (failAt : Option Nat) (fs : FileState) :
    (∀ e, fetch_rows env = .error e →
      (mainRun t env failAt fs).fs = fs ∧ (mainRun t env failAt fs).appended = 0)
    ∧ (∀ d rows k, k < List.length rows →
      append_rows_fallible (some k) fs d rows =
        (.error .ioFailure,
         some ((ensure_header fs HEADER).getD [] ++ (rows.take k).map (lineFor d)))) := by
  constructor
  · intro e he
    by_cases hg : should_run_at_10_berlin (berlin_now t) = true
    · rw [mainRun_fetch_error t env failAt fs e hg he]
      exact ⟨rfl, rfl⟩
    · rw [mainRun_gate_false t env failAt fs (by simpa using hg)]
      exact ⟨rfl, rfl⟩
  · intro d rows k hk
    exact append_rows_fallible_fail_eq fs d rows k hk

/-- Witness for C2 (amended): a network-down run leaves a header-only
ledger untouched, and a failure at the very first row write appends
nothing. -/
theorem no_write_on_fetch_failure_witness :
    (mainRun tOct envDown none (some [HEADER])).fs = some [HEADER]
    ∧ append_rows_fallible (some 0) (some [HEADER]) "2026-01-02" [sampleItem]
        = (.error .ioFailure, some [HEADER]) := by
  have h := no_write_on_fetch_failure tOct envDown none (some [HEADER])
  refine ⟨(h.1 .networkFailure rfl).1, ?_⟩
  have h2 := h.2 "2026-01-02" [sampleItem] 0 (by decide)
  rw [h2]
  rfl

/-- C10: when `results` is non-empty with fewer than 6 entries, the fetch
succeeds with exactly those entries, and the run (gate passing, all writes
succeeding) appends exactly that many rows and exits 0 — no padding to 6,
no failure. -/
theorem undersized_batch_spec (t : Nat) (env : FetchEnv) (fs : FileState)
    (v : String) (resp : ApiResponse) (rs : List JObj)
    (hgate : should_run_at_10_berlin (berlin_now t) = true)
    (hpage : env.pageOk = true)
    (hcookie : env.cookie = some v) (hv : v ≠ "")
    (hapi : env.apiResp (unquote (unquote v)) = some resp)
    (hres : resp.results = some rs)
    (hne : rs ≠ []) (hlen : rs.length < 6) :
    fetch_rows env = .ok rs
    ∧ (mainRun t env none fs).exitCode = 0
    ∧ (mainRun t env none fs).appended = rs.length
    ∧ (mainRun t env none fs).fs =
        some ((ensure_header fs HEADER).getD [] ++
              rs.map (lineFor (isoDate (berlin_now t)))) := by
  have hie : v.isEmpty = false := by
    rw [Bool.eq_false_iff]
    intro hcon
    exact hv ((String.isEmpty_iff v).mp hcon)
  have htake : rs.take 6 = rs := List.take_of_length_le (by omega)
  have hget : resp.results.getD [] = rs := by rw [hres]; rfl
  have hieL : rs.isEmpty = false := by
    cases rs with
    | nil => exact absurd rfl hne
    | cons x xs => rfl
  have hfetch : fetch_rows env = .ok rs := by
    simp [fetch_rows, hpage, hcookie, tokenStage, hie, hapi, parseResults,
      hget, hieL, htake]
  have hmain := mainRun_fetch_ok t env fs rs hgate hfetch
  refine ⟨hfetch, ?_, ?_, ?_⟩ <;> rw [hmain]

/-- Witness for C10: two results yield a successful fetch of 2 records and
a run that appends 2 rows. -/
theorem undersized_batch_spec_witness :
    fetch_rows envTwo = .ok [sampleItem, sampleItem]
    ∧ (mainRun tOct envTwo none (some [HEADER])).appended = 2 := by
  have h := undersized_batch_spec tOct envTwo (some [HEADER]) "token"
    ⟨some [sampleItem, sampleItem]⟩ [sampleItem, sampleItem]
    rfl rfl rfl (by decide) rfl rfl (by decide) (by decide)
  exact ⟨h.1, by rw [h.2.2.1]; rfl⟩

/-- Helper: every qualifying row of a table has exactly 10 cells. -/
theorem mem_qualifyingRows_length (tb : HtmlTable) (r : List String)
    (hr : r ∈ qualifyingRows tb) : r.length = 10 := by
  simp only [qualifyingRows, List.mem_filter, List.mem_map] at hr
  obtain ⟨⟨orig, horig, heq⟩, _⟩ := hr
  simp only [List.mem_filter, decide_eq_true_eq] at horig
  obtain ⟨_, hlen⟩ := horig
  subst heq
  simp only [List.length_take]
  omega

/-- C9 (spec-modelled): the HTML strategy returns, when a table whose
header text contains both "Contract" and "Latest" exists and has at least
6 qualifying rows, exactly the first 6 qualifying rows in document order,
each of exactly 10 cells; with fewer than 6 qualifying rows it fails with
InsufficientRowsFailure, and with no matching table with
TableNotFoundFailure. -/
theorem fetch_via_html_spec (doc : List HtmlTable) :
    (doc.find? tableMatches = none →
      fetchViaHtml doc = .error .tableNotFoundFailure)
    ∧ (∀ tb, doc.find? tableMatches = some tb →
        ((qualifyingRows tb).length < 6 →
          fetchViaHtml doc = .error .insufficientRowsFailure)
        ∧ (6 ≤ (qualifyingRows tb).length →
          fetchViaHtml doc = .ok ((qualifyingRows tb).take 6)
          ∧ ((qualifyingRows tb).take 6).length = 6
          ∧ ∀ r ∈ (qualifyingRows tb).take 6, r.length = 10)) := by
  constructor
  · intro hnone
    simp [fetchViaHtml, hnone]
  · intro tb htb
    constructor
    · intro hlt
      simp [fetchViaHtml, htb, hlt]
    · intro hge
      have hnotlt : ¬ (qualifyingRows tb).length < 6 := by omega
      refine ⟨by simp [fetchViaHtml, htb, hnotlt],
              by simp only [List.length_take]; omega, ?_⟩
      intro r hr
      exact mem_qualifyingRows_length tb r (List.mem_of_mem_take hr)

/-- A one-table document with a matching header and 7 qualifying rows. -/
def sampleDoc : List HtmlTable :=
  [⟨["Contract", "Latest"], List.replicate 7 (List.replicate 11 "SBH26")⟩]

/-- Witness for C9: on the sample document the strategy returns 6 rows of
10 cells. -/
theorem fetch_via_html_spec_witness :
    fetchViaHtml sampleDoc
      = .ok (List.replicate 6 (List.replicate 10 "SBH26")) := by
  have h := (fetch_via_html_spec sampleDoc).2
    ⟨["Contract", "Latest"], List.replicate 7 (List.replicate 11 "SBH26")⟩ rfl
  have h2 := (h.2 (by decide)).1
  rw [h2]
  rfl

end SugarPrices
